import Mathlib

/-!
Verification of the MLS WASM client bindings
(`src/packages/mls-wasm/src/lib.rs` of a2f0/tearleads).

Shallow embedding conventions:
* Rust byte strings (`Vec<u8>`, `&[u8]`, and the UTF-8 bytes of `String`
  values that carry binary identifiers) are `List Nat`.
* The base64 boundary is symbolic: a base64 string is either the encoding
  of its decoded content (`B64.enc`) or a malformed string (`B64.invalid`);
  `BASE64.encode` is `B64.enc` and decoding `B64.invalid` fails, mirroring
  that `encode` is injective and never fails while `decode` can fail.
* The TLS-serialization boundary is symbolic in the same way (`Tls.ser` /
  `Tls.junk`).
* The OpenMLS cryptographic engine is an external dependency that is not
  part of this repository; the spec scopes it out and describes it only at
  its interface, so the engine-owned group state and its operations are
  modelled from the spec (each such definition says so in its doc comment).
* Fallible Rust paths (`Result<_, JsValue>`, the `?` operator) are
  `Except String _`; a `&mut self` method returns the updated client next
  to its result, and every early-`?`-return yields the unchanged client.
-/

/-- Byte strings. -/
abbrev Bytes := List Nat

/-- UTF-8 continuation byte test (10xxxxxx). -/
def utf8Cont (b : Nat) : Bool := 0x80 ≤ b && b ≤ 0xBF

/-- UTF-8 validity of a byte sequence (the RFC 3629 well-formedness table),
modelling the success condition of Rust's String::from_utf8 used at
src/packages/mls-wasm/src/lib.rs line 347. -/
def isValidUtf8 : List Nat → Bool
  | [] => true
  | b :: r =>
    if b ≤ 0x7F then isValidUtf8 r
    else if 0xC2 ≤ b && b ≤ 0xDF then
      match r with
      | c1 :: r2 => utf8Cont c1 && isValidUtf8 r2
      | [] => false
    else if b = 0xE0 then
      match r with
      | c1 :: c2 :: r2 => (0xA0 ≤ c1 && c1 ≤ 0xBF) && utf8Cont c2 && isValidUtf8 r2
      | _ => false
    else if (0xE1 ≤ b && b ≤ 0xEC) || b = 0xEE || b = 0xEF then
      match r with
      | c1 :: c2 :: r2 => utf8Cont c1 && utf8Cont c2 && isValidUtf8 r2
      | _ => false
    else if b = 0xED then
      match r with
      | c1 :: c2 :: r2 => (0x80 ≤ c1 && c1 ≤ 0x9F) && utf8Cont c2 && isValidUtf8 r2
      | _ => false
    else if b = 0xF0 then
      match r with
      | c1 :: c2 :: c3 :: r2 =>
        (0x90 ≤ c1 && c1 ≤ 0xBF) && utf8Cont c2 && utf8Cont c3 && isValidUtf8 r2
      | _ => false
    else if 0xF1 ≤ b && b ≤ 0xF3 then
      match r with
      | c1 :: c2 :: c3 :: r2 => utf8Cont c1 && utf8Cont c2 && utf8Cont c3 && isValidUtf8 r2
      | _ => false
    else if b = 0xF4 then
      match r with
      | c1 :: c2 :: c3 :: r2 =>
        (0x80 ≤ c1 && c1 ≤ 0x8F) && utf8Cont c2 && utf8Cont c3 && isValidUtf8 r2
      | _ => false
    else false

/-- Rust's String::from_utf8_lossy as a transformation on the byte level
(the result is the UTF-8 bytes of the produced string), used at
src/packages/mls-wasm/src/lib.rs line 239 to derive a local group id from
the wire-level group id.  Well-formed sequences are copied through; an
ill-formed sequence is replaced by the replacement character U+FFFD
(bytes 0xEF 0xBF 0xBD).  Replacement granularity for multi-byte errors is
modelled per offending lead byte; on well-formed input (in particular the
ASCII ids this client produces) the function is the identity, exactly as in
Rust. -/
def utf8LossyGo : Nat → List Nat → List Nat
  | _, [] => []
  | 0, _ => []
  | fuel + 1, b :: r =>
    if b ≤ 0x7F then b :: utf8LossyGo fuel r
    else if 0xC2 ≤ b && b ≤ 0xDF then
      match r with
      | c1 :: r2 =>
        if utf8Cont c1 then b :: c1 :: utf8LossyGo fuel r2
        else 0xEF :: 0xBF :: 0xBD :: utf8LossyGo fuel (c1 :: r2)
      | [] => [0xEF, 0xBF, 0xBD]
    else if b = 0xE0 then
      match r with
      | c1 :: c2 :: r2 =>
        if (0xA0 ≤ c1 && c1 ≤ 0xBF) && utf8Cont c2 then b :: c1 :: c2 :: utf8LossyGo fuel r2
        else 0xEF :: 0xBF :: 0xBD :: utf8LossyGo fuel (c1 :: c2 :: r2)
      | r1 => 0xEF :: 0xBF :: 0xBD :: utf8LossyGo fuel r1
    else if (0xE1 ≤ b && b ≤ 0xEC) || b = 0xEE || b = 0xEF then
      match r with
      | c1 :: c2 :: r2 =>
        if utf8Cont c1 && utf8Cont c2 then b :: c1 :: c2 :: utf8LossyGo fuel r2
        else 0xEF :: 0xBF :: 0xBD :: utf8LossyGo fuel (c1 :: c2 :: r2)
      | r1 => 0xEF :: 0xBF :: 0xBD :: utf8LossyGo fuel r1
    else if b = 0xED then
      match r with
      | c1 :: c2 :: r2 =>
        if (0x80 ≤ c1 && c1 ≤ 0x9F) && utf8Cont c2 then b :: c1 :: c2 :: utf8LossyGo fuel r2
        else 0xEF :: 0xBF :: 0xBD :: utf8LossyGo fuel (c1 :: c2 :: r2)
      | r1 => 0xEF :: 0xBF :: 0xBD :: utf8LossyGo fuel r1
    else if b = 0xF0 then
      match r with
      | c1 :: c2 :: c3 :: r2 =>
        if (0x90 ≤ c1 && c1 ≤ 0xBF) && utf8Cont c2 && utf8Cont c3 then
          b :: c1 :: c2 :: c3 :: utf8LossyGo fuel r2
        else 0xEF :: 0xBF :: 0xBD :: utf8LossyGo fuel (c1 :: c2 :: c3 :: r2)
      | r1 => 0xEF :: 0xBF :: 0xBD :: utf8LossyGo fuel r1
    else if 0xF1 ≤ b && b ≤ 0xF3 then
      match r with
      | c1 :: c2 :: c3 :: r2 =>
        if utf8Cont c1 && utf8Cont c2 && utf8Cont c3 then b :: c1 :: c2 :: c3 :: utf8LossyGo fuel r2
        else 0xEF :: 0xBF :: 0xBD :: utf8LossyGo fuel (c1 :: c2 :: c3 :: r2)
      | r1 => 0xEF :: 0xBF :: 0xBD :: utf8LossyGo fuel r1
    else if b = 0xF4 then
      match r with
      | c1 :: c2 :: c3 :: r2 =>
        if (0x80 ≤ c1 && c1 ≤ 0x8F) && utf8Cont c2 && utf8Cont c3 then
          b :: c1 :: c2 :: c3 :: utf8LossyGo fuel r2
        else 0xEF :: 0xBF :: 0xBD :: utf8LossyGo fuel (c1 :: c2 :: c3 :: r2)
      | r1 => 0xEF :: 0xBF :: 0xBD :: utf8LossyGo fuel r1
    else 0xEF :: 0xBF :: 0xBD :: utf8LossyGo fuel r

/-- Rust String.from_utf8_lossy, entry point: the fuel (one unit per
consumed lead byte) is the input length, which always suffices. -/
def utf8Lossy (l : List Nat) : List Nat := utf8LossyGo l.length l

/-- A base64 string crossing the JS boundary: either the encoding
`BASE64.encode` of a decoded content, or a malformed base64 string on which
`BASE64.decode` fails. -/
inductive B64 (α : Type) where
  | enc : α → B64 α
  | invalid : B64 α
deriving DecidableEq

/-- A TLS-serialized byte string: either the detached serialization
(`tls_serialize_detached`) of a value, or bytes on which
`tls_deserialize` fails. -/
inductive Tls (α : Type) where
  | ser : α → Tls α
  | junk : Tls α
deriving DecidableEq

/-- Modelled from the spec: an MLS Welcome message — "a message delivered to
a new group member containing the information needed to derive current group
state": the wire-level group id, the epoch the joiner lands in, and the
membership view. -/
structure WelcomeMsg where
  wire_group_id : Bytes
  join_epoch : Nat
  members : List Bytes
deriving DecidableEq

/-- Modelled from the spec: the payload classification of an MLS protocol
message — the closed set ApplicationMessage / Proposal / Commit /
ExternalJoinProposal of §4.3.  An application message records the sender's
leaf and the plaintext payload; a commit records the membership it
installs. -/
inductive MlsContent where
  | application : Nat → Bytes → MlsContent
  | proposal : MlsContent
  | commit : List Bytes → MlsContent
  | ExternalJoin : MlsContent
deriving DecidableEq

/-- Modelled from the spec: an MLS protocol message — scoped to one group
and one epoch ("every encryption/decryption is scoped to one epoch"). -/
structure ProtocolMessage where
  group_id : Bytes
  epoch : Nat
  content : MlsContent
deriving DecidableEq

/-- Modelled from the spec: the body of a deserialized MlsMessageIn —
a Welcome, a protocol message, or another body kind (GroupInfo or
KeyPackage), matching the MlsMessageBodyIn cases used in lib.rs. -/
inductive MlsMessageBody where
  | welcome : WelcomeMsg → MlsMessageBody
  | protocolMsg : ProtocolMessage → MlsMessageBody
  | other : MlsMessageBody
deriving DecidableEq

/-- Modelled from the spec: an unvalidated KeyPackageIn as deserialized from
the wire — protocol version, the issuing identity's credential, the one-time
public key material (as an abstract identifier), and a structural
well-formedness flag standing for the signature/extension checks
`KeyPackageIn::validate` performs. -/
structure KeyPackageIn where
  version : Nat
  credential : Bytes
  init_key : Nat
  well_formed : Bool
deriving DecidableEq

/-- A validated key package. -/
structure KeyPackage where
  credential : Bytes
  init_key : Nat
deriving DecidableEq

/-- The MLS 1.0 protocol version tag (ProtocolVersion::Mls10). -/
def mls10 : Nat := 10

/-- Modelled from the spec: `KeyPackageIn::validate(crypto, Mls10)` checks
the protocol version and the structural/signature validity of the package
(§4.3: "independently deserialized and validated for protocol-version and
structural correctness"). -/
def KeyPackageIn.validate (kp : KeyPackageIn) : Except String KeyPackage :=
  if kp.version = mls10 && kp.well_formed then .ok ⟨kp.credential, kp.init_key⟩
  else .error "Invalid KeyPackage"

/-- Modelled from the spec: the engine-owned per-group state of an
`MlsGroup` — wire-level group id, current epoch, membership view (the
ratchet-tree / membership tree of the glossary), and the at-most-one
pending self-issued commit of §3 (recorded as the membership it would
install). -/
structure MlsGroup where
  group_id : Bytes
  epoch : Nat
  members : List Bytes
  pending : Option (List Bytes)
deriving DecidableEq

/-- Modelled from the spec: `MlsGroup::new_with_group_id` — §4.3 create:
"initializes group cryptographic state with this client as sole member" at
epoch 0. -/
def MlsGroup.new_with_group_id (gid cred : Bytes) : MlsGroup :=
  ⟨gid, 0, [cred], none⟩

/-- The result of a processed protocol message, mirroring OpenMLS's
ProcessedMessageContent cases matched in lib.rs. -/
inductive ProcessedMessageContent where
  | applicationMessage : Bytes → Nat → ProcessedMessageContent
  | proposalMessage : ProcessedMessageContent
  | stagedCommitMessage : List Bytes → ProcessedMessageContent
  | ExternalJoinProposalMessage : ProcessedMessageContent
deriving DecidableEq

/-- Modelled from the spec: `MlsGroup::add_members` — produces one commit
(sent at the current epoch) and one welcome (placing joiners at the next
epoch, with the extended membership), and leaves the group with a pending
commit awaiting merge; an empty input list is rejected by the engine. -/
def MlsGroup.add_members (g : MlsGroup) (kps : List KeyPackage) :
    Except String (MlsMessageBody × MlsMessageBody × MlsGroup) :=
  if kps.isEmpty then .error "empty input"
  else
    .ok (.protocolMsg ⟨g.group_id, g.epoch, .commit (kps.map (fun kp => kp.credential))⟩,
         .welcome ⟨g.group_id, g.epoch + 1, g.members ++ kps.map (fun kp => kp.credential)⟩,
         { g with pending := some (g.members ++ kps.map (fun kp => kp.credential)) })

/-- Modelled from the spec: `MlsGroup::merge_pending_commit` — applies the
pending self-issued commit, advancing the epoch by one and installing the
staged membership. -/
def MlsGroup.merge_pending_commit (g : MlsGroup) : Except String MlsGroup :=
  match g.pending with
  | some m => .ok ⟨g.group_id, g.epoch + 1, m, none⟩
  | none => .error "no pending commit"

/-- Modelled from the spec: `MlsGroup::create_message` — frames a plaintext
as an application message of this group at its current epoch (§4.3:
"Encryption is only ever performed relative to the session's current
epoch"); the sender is this client's own leaf. -/
def MlsGroup.create_message (g : MlsGroup) (p : Bytes) : MlsMessageBody :=
  .protocolMsg ⟨g.group_id, g.epoch, .application 0 p⟩

/-- Modelled from the spec: `MlsGroup::process_message` — accepts only
messages of this group at its current epoch (§7: epoch mismatch is a
cryptographic/protocol error) and classifies the content into the closed
set of processed message kinds. -/
def MlsGroup.process_message (g : MlsGroup) (pm : ProtocolMessage) :
    Except String ProcessedMessageContent :=
  if pm.group_id = g.group_id then
    if pm.epoch = g.epoch then
      .ok (match pm.content with
        | .application s p => .applicationMessage p s
        | .proposal => .proposalMessage
        | .commit m => .stagedCommitMessage m
        | .ExternalJoin => .ExternalJoinProposalMessage)
    else .error "wrong epoch"
  else .error "wrong group id"

/-- Modelled from the spec: `MlsGroup::merge_staged_commit` — merges a
staged remote commit, advancing the epoch and installing the membership it
carries. -/
def MlsGroup.merge_staged_commit (g : MlsGroup) (m : List Bytes) : MlsGroup :=
  ⟨g.group_id, g.epoch + 1, m, none⟩

/-- Modelled from the spec: `MlsGroup::export_ratchet_tree` — the public
membership tree (glossary: "the structure encoding current group
membership"), carrying no epoch and no ratchet secrets. -/
def MlsGroup.export_ratchet_tree (g : MlsGroup) : List Bytes := g.members

/-- The uniform result envelope returned to JavaScript
(lib.rs lines 25-32). -/
structure JsResult (α : Type) where
  ok : Bool
  value : Option α
  error : Option String
deriving DecidableEq

/-- `JsResult::ok` (lib.rs lines 35-41). -/
def JsResult.okResult {α : Type} (v : α) : JsResult α := ⟨true, some v, none⟩

/-- `JsResult::err` (lib.rs lines 43-49). -/
def JsResult.errResult {α : Type} (e : String) : JsResult α := ⟨false, none, some e⟩

/-- The envelope consistency property of the spec (§6): `ok` agrees with
which of `value` / `error` is present, the two are mutually exclusive, and
never both absent. -/
def envelopeConsistent {α : Type} (r : JsResult α) : Bool :=
  (!r.ok || (r.value.isSome && r.error.isNone)) &&
  (r.ok || (r.error.isSome && r.value.isNone)) &&
  !(r.value.isNone && r.error.isNone)

/-- KeyPackageData returned to JavaScript: `id` is the base64 of the
content-derived hash_ref (modelled by the hash value itself, since base64
encoding is injective), `data` the base64 of the serialized package. -/
structure KeyPackageData where
  id : Nat
  data : B64 (Tls KeyPackageIn)
deriving DecidableEq

/-- GroupCreatedData (lib.rs lines 60-64): the local id (a String in Rust,
carried here as its bytes) and the base64 wire-level group id. -/
structure GroupCreatedData where
  group_id : Bytes
  mls_group_id : B64 Bytes
deriving DecidableEq

/-- WelcomeData (lib.rs lines 66-71). -/
structure WelcomeData where
  key_package_ref : String
  welcome : B64 (Tls MlsMessageBody)
deriving DecidableEq

/-- AddMembersResult (lib.rs lines 73-78). -/
structure AddMembersResult where
  commit : B64 (Tls MlsMessageBody)
  welcomes : List WelcomeData
deriving DecidableEq

/-- EncryptedMessage (lib.rs lines 80-85). -/
structure EncryptedMessage where
  ciphertext : B64 (Tls MlsMessageBody)
  epoch : Nat
deriving DecidableEq

/-- DecryptedMessage (lib.rs lines 87-92): the plaintext (a Rust String,
carried here as its UTF-8 bytes) and the sender index. -/
structure DecryptedMessage where
  plaintext : Bytes
  sender_index : Nat
deriving DecidableEq

/-- ExportedGroup (lib.rs lines 102-107): local id, base64 wire group id,
and the base64 of the TLS-serialized exported ratchet tree. -/
structure ExportedGroup where
  id : Bytes
  mls_group_id : B64 Bytes
  state : B64 (List Bytes)
deriving DecidableEq

/-- ExportedState (lib.rs lines 94-100). -/
structure ExportedState where
  credential : B64 Bytes
  signature_key : B64 Nat
  groups : List ExportedGroup
deriving DecidableEq

/-- The MlsClient state (lib.rs lines 109-116).  `rng` is the crypto
provider's internal randomness counter (the next fresh key id the engine
will draw) and `keygen_failures` is the fault model for engine key
generation: generation of the fresh key with a listed id fails;
`uuid_ctr` feeds fresh local uuids. -/
structure MlsClient where
  credential : Bytes
  signature_pub : Nat
  groups : List (Bytes × MlsGroup)
  rng : Nat
  keygen_failures : List Nat
  uuid_ctr : Nat
deriving DecidableEq

/-- Lookup in the session registry (`HashMap::get`). -/
def lookupGroup : List (Bytes × MlsGroup) → Bytes → Option MlsGroup
  | [], _ => none
  | (k, g) :: rest, key => if k = key then some g else lookupGroup rest key

/-- Insertion into the session registry (`HashMap::insert`): replaces the
value at an existing key, otherwise adds the binding. -/
def insertGroup : List (Bytes × MlsGroup) → Bytes → MlsGroup → List (Bytes × MlsGroup)
  | [], key, g => [(key, g)]
  | (k, g0) :: rest, key, g =>
    if k = key then (k, g) :: rest else (k, g0) :: insertGroup rest key g

/-- Modelled from the spec: `uuid::Uuid::new_v4().to_string().as_bytes()` —
a fresh locally-chosen ASCII identifier drawn from the client's randomness
counter (§4.3: "allocates a fresh, locally-unique group identifier"). -/
def uuidBytes (n : Nat) : Bytes :=
  [117, 48 + n % 10, 48 + n / 10 % 10, 48 + n / 100 % 10]

/-- `MlsClient::new` (lib.rs lines 121-146): draws a signature key pair from
the engine (fatal on engine failure) and starts with an empty registry. -/
def MlsClient.new (user_id : Bytes) (seed : Nat) (failures : List Nat) :
    Except String MlsClient :=
  if seed ∈ failures then .error "Failed to generate signature keys"
  else .ok ⟨user_id, seed, [], seed + 1, failures, 0⟩

/-- The generation loop of `generate_key_packages` (lib.rs lines 151-176):
each iteration draws a fresh key from the engine (aborting the whole call if
the engine fails), serializes the package and takes its content-derived
hash_ref; the hash_ref is determined by the fresh key. -/
def genKeyPackagesLoop (cred : Bytes) (failures : List Nat) :
    Nat → Nat → Except String (List KeyPackageData)
  | _, 0 => .ok []
  | fresh, n + 1 =>
    if fresh ∈ failures then .error "Failed to create KeyPackage"
    else
      match genKeyPackagesLoop cred failures (fresh + 1) n with
      | .error e => .error e
      | .ok rest => .ok (⟨fresh, B64.enc (Tls.ser ⟨mls10, cred, fresh, true⟩)⟩ :: rest)

/-- `MlsClient::generate_key_packages` (lib.rs lines 149-181). -/
def MlsClient.generate_key_packages (c : MlsClient) (count : Nat) :
    Except String (JsResult (List KeyPackageData)) :=
  match genKeyPackagesLoop c.credential c.keygen_failures c.rng count with
  | .error e => .error e
  | .ok packages => .ok (JsResult.okResult packages)

/-- `MlsClient::create_group` (lib.rs lines 184-210): draws a fresh uuid,
uses its bytes as the wire-level group id (`GroupId::from_slice`), creates
the engine group with this client as sole member, and inserts it into the
registry keyed by the uuid. -/
def MlsClient.create_group (c : MlsClient) (_group_name : Bytes) :
    MlsClient × Except String (JsResult GroupCreatedData) :=
  let group_id := uuidBytes c.uuid_ctr
  let g := MlsGroup.new_with_group_id group_id c.credential
  ({ c with groups := insertGroup c.groups group_id g, uuid_ctr := c.uuid_ctr + 1 },
   .ok (JsResult.okResult ⟨group_id, B64.enc group_id⟩))

/-- `MlsClient::join_group` (lib.rs lines 213-250): base64-decodes and
deserializes the frame, requires a Welcome body, builds the group from the
welcome, derives the local id by lossy UTF-8 decoding of the wire group id,
and inserts it into the registry. -/
def MlsClient.join_group (c : MlsClient) (welcome_b64 : B64 (Tls MlsMessageBody)) :
    MlsClient × Except String (JsResult GroupCreatedData) :=
  match welcome_b64 with
  | .invalid => (c, .error "Invalid base64 welcome")
  | .enc .junk => (c, .error "Failed to deserialize welcome")
  | .enc (.ser body) =>
    match body with
    | .welcome w =>
      let g : MlsGroup := ⟨w.wire_group_id, w.join_epoch, w.members, none⟩
      let group_id := utf8Lossy w.wire_group_id
      ({ c with groups := insertGroup c.groups group_id g },
       .ok (JsResult.okResult ⟨group_id, B64.enc w.wire_group_id⟩))
    | _ => (c, .error "Message is not a Welcome")

/-- The per-package decode chain of `add_members` (lib.rs lines 259-266):
base64 decode, TLS deserialize, validate. -/
def decodeKeyPackage (kp_b64 : B64 (Tls KeyPackageIn)) : Except String KeyPackage :=
  match kp_b64 with
  | .invalid => .error "Invalid base64 KeyPackage"
  | .enc .junk => .error "Failed to deserialize KeyPackage"
  | .enc (.ser kp_in) => kp_in.validate

/-- Whether a key-package input fails somewhere in the decode chain. -/
def kpInvalid (kp : B64 (Tls KeyPackageIn)) : Bool :=
  match decodeKeyPackage kp with
  | .error _ => true
  | .ok _ => false

/-- The validation loop of `add_members`: packages are decoded in order and
the first failure aborts the whole call. -/
def decodeKeyPackages : List (B64 (Tls KeyPackageIn)) → Except String (List KeyPackage)
  | [] => .ok []
  | kp :: rest =>
    match decodeKeyPackage kp with
    | .error e => .error e
    | .ok k =>
      match decodeKeyPackages rest with
      | .error e => .error e
      | .ok ks => .ok (k :: ks)

/-- `MlsClient::add_members` (lib.rs lines 253-299): looks the group up,
validates every package (any failure aborts before the engine is invoked),
asks the engine for commit and welcome, immediately merges the pending
commit, stores the advanced group, and returns the serialized commit with a
single shared welcome tagged "all". -/
def MlsClient.add_members (c : MlsClient) (group_id : Bytes)
    (key_packages_b64 : List (B64 (Tls KeyPackageIn))) :
    MlsClient × Except String (JsResult AddMembersResult) :=
  match lookupGroup c.groups group_id with
  | none => (c, .error "Group not found")
  | some g =>
    match decodeKeyPackages key_packages_b64 with
    | .error e => (c, .error e)
    | .ok kps =>
      match g.add_members kps with
      | .error _ => (c, .error "Failed to add members")
      | .ok (commit, welcome, g1) =>
        match g1.merge_pending_commit with
        | .error _ => (c, .error "Failed to merge commit")
        | .ok g2 =>
          ({ c with groups := insertGroup c.groups group_id g2 },
           .ok (JsResult.okResult
             ⟨B64.enc (Tls.ser commit), [⟨"all", B64.enc (Tls.ser welcome)⟩]⟩))

/-- `MlsClient::encrypt` (lib.rs lines 302-325): looks the group up, frames
the plaintext at the current epoch, and returns the serialized ciphertext
together with that epoch. -/
def MlsClient.encrypt (c : MlsClient) (group_id : Bytes) (plaintext : Bytes) :
    MlsClient × Except String (JsResult EncryptedMessage) :=
  match lookupGroup c.groups group_id with
  | none => (c, .error "Group not found")
  | some g =>
    (c, .ok (JsResult.okResult ⟨B64.enc (Tls.ser (g.create_message plaintext)), g.epoch⟩))

/-- `MlsClient::decrypt` (lib.rs lines 328-378): the group lookup comes
first; only then base64 decode, TLS deserialize, conversion to a protocol
message, engine processing, and the four-way dispatch on the processed
content.  The application branch insists on UTF-8 plaintext and hardcodes
sender_index 0; the staged-commit branch merges the commit and returns the
bare envelope with ok = true and no value and no error. -/
def MlsClient.decrypt (c : MlsClient) (group_id : Bytes)
    (ciphertext_b64 : B64 (Tls MlsMessageBody)) :
    MlsClient × Except String (JsResult DecryptedMessage) :=
  match lookupGroup c.groups group_id with
  | none => (c, .error "Group not found")
  | some g =>
    match ciphertext_b64 with
    | .invalid => (c, .error "Invalid base64 ciphertext")
    | .enc .junk => (c, .error "Failed to deserialize message")
    | .enc (.ser body) =>
      match body with
      | .welcome _ => (c, .error "Not a protocol message")
      | .other => (c, .error "Not a protocol message")
      | .protocolMsg pm =>
        match g.process_message pm with
        | .error _ => (c, .error "Failed to process message")
        | .ok content =>
          match content with
          | .applicationMessage payload _sender =>
            if isValidUtf8 payload then (c, .ok (JsResult.okResult ⟨payload, 0⟩))
            else (c, .error "Invalid UTF-8 in message")
          | .proposalMessage => (c, .error "Received proposal, not application message")
          | .stagedCommitMessage m =>
            ({ c with groups := insertGroup c.groups group_id (g.merge_staged_commit m) },
             .ok ⟨true, none, none⟩)
          | .ExternalJoinProposalMessage => (c, .error "Received external join proposal")

/-- `MlsClient::get_epoch` (lib.rs lines 381-386). -/
def MlsClient.get_epoch (c : MlsClient) (group_id : Bytes) : Except String Nat :=
  match lookupGroup c.groups group_id with
  | none => .error "Group not found"
  | some g => .ok g.epoch

/-- `MlsClient::export_state` (lib.rs lines 392-419): serializes the
credential and public signature key, and for every registered group its
local id, base64 wire group id, and base64 TLS-serialized exported ratchet
tree. -/
def MlsClient.export_state (c : MlsClient) : Except String (JsResult ExportedState) :=
  .ok (JsResult.okResult
    ⟨B64.enc c.credential, B64.enc c.signature_pub,
     c.groups.map (fun p =>
       ⟨p.1, B64.enc p.2.group_id, B64.enc p.2.export_ratchet_tree⟩)⟩)

/-- The public entry points exported by the #[wasm_bindgen] blocks of
lib.rs, by their exported JS names: the start hook, the constructor, and
the nine methods of MlsClient. -/
def MlsClient.publicEntryPoints : List String :=
  ["init", "new", "generateKeyPackages", "createGroup", "joinGroup", "addMembers",
   "encrypt", "decrypt", "getEpoch", "exportState"]

/-! ### Helper lemmas -/

theorem envelopeConsistent_okResult {α : Type} (v : α) :
    envelopeConsistent (JsResult.okResult v) = true := rfl

theorem lookupGroup_insert_self (l : List (Bytes × MlsGroup)) (k : Bytes) (g : MlsGroup) :
    lookupGroup (insertGroup l k g) k = some g := by
  induction l with
  | nil => simp [insertGroup, lookupGroup]
  | cons p rest ih =>
    by_cases h : p.1 = k
    · simp [insertGroup, lookupGroup, h]
    · simp [insertGroup, lookupGroup, h, ih]

theorem insertGroup_map_fst_of_mem (l : List (Bytes × MlsGroup)) (k : Bytes)
    (g g0 : MlsGroup) (h : lookupGroup l k = some g0) :
    (insertGroup l k g).map Prod.fst = l.map Prod.fst := by
  induction l with
  | nil => simp [lookupGroup] at h
  | cons p rest ih =>
    by_cases hk : p.1 = k
    · simp [insertGroup, hk]
    · simp only [lookupGroup, hk, if_neg] at h
      simp [insertGroup, hk, ih h]

theorem decodeKeyPackages_error_of_invalid (kps : List (B64 (Tls KeyPackageIn)))
    (h : ∃ kp ∈ kps, kpInvalid kp = true) :
    ∃ e, decodeKeyPackages kps = .error e := by
  induction kps with
  | nil => simp at h
  | cons kp rest ih =>
    rcases h with ⟨kp0, hmem, hbad⟩
    rcases List.mem_cons.mp hmem with h0 | h0
    · subst h0
      unfold kpInvalid at hbad
      rcases hdec : decodeKeyPackage kp0 with e | k
      · exact ⟨e, by simp [decodeKeyPackages, hdec]⟩
      · rw [hdec] at hbad; simp at hbad
    · rcases hdec : decodeKeyPackage kp with e | k
      · exact ⟨e, by simp [decodeKeyPackages, hdec]⟩
      · rcases ih ⟨kp0, h0, hbad⟩ with ⟨e, he⟩
        exact ⟨e, by simp [decodeKeyPackages, hdec, he]⟩

theorem genKeyPackagesLoop_ok (cred : Bytes) (failures : List Nat) :
    ∀ (n fresh : Nat), (∀ j, j < n → (fresh + j) ∉ failures) →
      ∃ l, genKeyPackagesLoop cred failures fresh n = .ok l ∧
        l.map (fun p => p.id) = List.range' fresh n ∧ l.length = n := by
  intro n
  induction n with
  | zero => intro fresh _; exact ⟨[], rfl, rfl, rfl⟩
  | succ m ih =>
    intro fresh hok
    have h0 : fresh ∉ failures := by
      have := hok 0 (Nat.succ_pos m); simpa using this
    have hrest : ∀ j, j < m → (fresh + 1 + j) ∉ failures := by
      intro j hj
      have := hok (j + 1) (Nat.succ_lt_succ hj)
      simpa [Nat.add_assoc, Nat.add_comm 1 j] using this
    rcases ih (fresh + 1) hrest with ⟨l, hl, hmap, hlen⟩
    refine ⟨⟨fresh, B64.enc (Tls.ser ⟨mls10, cred, fresh, true⟩)⟩ :: l, ?_, ?_, ?_⟩
    · simp [genKeyPackagesLoop, h0, hl]
    · simp [hmap, List.range'_succ]
    · simp [hlen]

theorem genKeyPackagesLoop_error (cred : Bytes) (failures : List Nat) :
    ∀ (n fresh : Nat), (∃ j, j < n ∧ (fresh + j) ∈ failures) →
      ∃ e, genKeyPackagesLoop cred failures fresh n = .error e := by
  intro n
  induction n with
  | zero => intro fresh h; rcases h with ⟨j, hj, _⟩; exact absurd hj (Nat.not_lt_zero j)
  | succ m ih =>
    intro fresh h
    by_cases h0 : fresh ∈ failures
    · exact ⟨"Failed to create KeyPackage", by simp [genKeyPackagesLoop, h0]⟩
    · rcases h with ⟨j, hj, hmem⟩
      rcases j with _ | j1
      · simp at hmem; exact absurd hmem h0
      · have : ∃ j, j < m ∧ (fresh + 1 + j) ∈ failures := by
          exact ⟨j1, Nat.lt_of_succ_lt_succ hj, by
            have : fresh + 1 + j1 = fresh + (j1 + 1) := by omega
            rw [this]; exact hmem⟩
        rcases ih (fresh + 1) this with ⟨e, he⟩
        exact ⟨e, by simp [genKeyPackagesLoop, h0, he]⟩

theorem exportGroups_ext :
    ∀ l1 l2 : List (Bytes × MlsGroup),
      l1.map Prod.fst = l2.map Prod.fst →
      l1.map (fun p => p.2.group_id) = l2.map (fun p => p.2.group_id) →
      l1.map (fun p => p.2.members) = l2.map (fun p => p.2.members) →
      l1.map (fun p => (⟨p.1, B64.enc p.2.group_id, B64.enc p.2.export_ratchet_tree⟩ :
          ExportedGroup)) =
        l2.map (fun p => ⟨p.1, B64.enc p.2.group_id, B64.enc p.2.export_ratchet_tree⟩) := by
  intro l1
  induction l1 with
  | nil =>
    intro l2 h1 _ _
    cases l2 with
    | nil => rfl
    | cons q t => simp at h1
  | cons p t ih =>
    intro l2 h1 h2 h3
    cases l2 with
    | nil => simp at h1
    | cons q t2 =>
      simp only [List.map_cons, List.cons.injEq] at h1 h2 h3 ⊢
      refine ⟨?_, ih t2 h1.2 h2.2 h3.2⟩
      simp [MlsGroup.export_ratchet_tree, h1.1, h2.1, h3.1]

/-! ### Concrete sample states used by witnesses and counterexamples -/

/-- A sample client owning one group with id bytes [103], at epoch 0, with
itself as sole member. -/
def cS : MlsClient := ⟨[65], 0, [([103], ⟨[103], 0, [[65]], none⟩)], 1, [], 0⟩

/-- The sample client with the same group advanced to epoch 5. -/
def cS5 : MlsClient := ⟨[65], 0, [([103], ⟨[103], 5, [[65]], none⟩)], 1, [], 0⟩

/-- A sample client whose engine fails to generate the fresh key with id 2. -/
def cFail : MlsClient := ⟨[65], 0, [], 1, [2], 0⟩

/-- A valid serialized key package for a second identity. -/
def goodKp : B64 (Tls KeyPackageIn) := B64.enc (Tls.ser ⟨10, [66], 99, true⟩)

/-- Every successful decrypt envelope is either the standard ok-envelope
around an application message with sender_index 0 and UTF-8 plaintext, or
the bare ok-envelope of the staged-commit branch. -/
theorem decrypt_ok_shape (c : MlsClient) (gid : Bytes) (frame : B64 (Tls MlsMessageBody))
    (c2 : MlsClient) (r : JsResult DecryptedMessage)
    (h : c.decrypt gid frame = (c2, .ok r)) :
    (∃ payload, isValidUtf8 payload = true ∧ r = JsResult.okResult ⟨payload, 0⟩) ∨
      r = ⟨true, none, none⟩ := by
  unfold MlsClient.decrypt at h
  split at h
  · simp at h
  · split at h
    · simp at h
    · simp at h
    · split at h
      · simp at h
      · simp at h
      · split at h
        · simp at h
        · split at h
          · split at h
            · simp at h
              exact Or.inl ⟨_, ‹_›, h.2.symm⟩
            · simp at h
          · simp at h
          · simp at h
            exact Or.inr h.2.symm
          · simp at h

/-- A successful generate_key_packages call wraps its package list with
`JsResult::ok`. -/
theorem generate_key_packages_ok_shape (c : MlsClient) (n : Nat)
    (r : JsResult (List KeyPackageData)) (h : c.generate_key_packages n = .ok r) :
    ∃ v, r = JsResult.okResult v := by
  unfold MlsClient.generate_key_packages at h
  split at h
  · simp at h
  · simp at h
    exact ⟨_, h.symm⟩

/-- A successful join_group call wraps its result with `JsResult::ok`. -/
theorem join_group_ok_shape (c : MlsClient) (w : B64 (Tls MlsMessageBody))
    (c2 : MlsClient) (r : JsResult GroupCreatedData)
    (h : c.join_group w = (c2, .ok r)) : ∃ v, r = JsResult.okResult v := by
  unfold MlsClient.join_group at h
  split at h
  · simp at h
  · simp at h
  · split at h
    · simp at h
      exact ⟨_, h.2.symm⟩
    · simp at h

/-- A successful add_members call found the group, merged the commit it
issued (the group's epoch advances by one in the registry), and wraps its
result with `JsResult::ok`. -/
theorem add_members_ok_shape (c : MlsClient) (gid : Bytes)
    (kps : List (B64 (Tls KeyPackageIn))) (c2 : MlsClient) (r : JsResult AddMembersResult)
    (h : c.add_members gid kps = (c2, .ok r)) :
    ∃ g, lookupGroup c.groups gid = some g ∧ c2.get_epoch gid = .ok (g.epoch + 1) ∧
      ∃ v, r = JsResult.okResult v := by
  unfold MlsClient.add_members at h
  split at h
  · simp at h
  · rename_i g hg
    refine ⟨g, hg, ?_⟩
    split at h
    · simp at h
    · rename_i ks hks
      split at h
      · simp at h
      · rename_i commit welcome g1 hadd
        split at h
        · simp at h
        · rename_i g2 hmerge
          unfold MlsGroup.add_members at hadd
          split at hadd
          · simp at hadd
          · simp only [Except.ok.injEq, Prod.mk.injEq] at hadd
            rcases hadd with ⟨hcommit, hwelcome, hg1⟩
            rw [← hg1] at hmerge
            simp only [MlsGroup.merge_pending_commit, Except.ok.injEq] at hmerge
            simp only [Prod.mk.injEq, Except.ok.injEq] at h
            rcases h with ⟨hc2, hr⟩
            refine ⟨?_, ⟨_, hr.symm⟩⟩
            rw [← hc2]
            unfold MlsClient.get_epoch
            simp [lookupGroup_insert_self, ← hmerge]

/-- A successful encrypt call wraps its result with `JsResult::ok`. -/
theorem encrypt_ok_shape (c : MlsClient) (gid : Bytes) (p : Bytes)
    (c2 : MlsClient) (r : JsResult EncryptedMessage)
    (h : c.encrypt gid p = (c2, .ok r)) : ∃ v, r = JsResult.okResult v := by
  unfold MlsClient.encrypt at h
  split at h
  · simp at h
  · simp at h
    exact ⟨_, h.2.symm⟩

/-! ### Claims -/

/-- Counterexample to claim C1 at concrete inputs: no import-state operation
exists among the public entry points, and the exported snapshot does not
determine epochs — two concrete clients differing only in one group's epoch
(0 versus 5) export identical snapshots, so no import of the snapshot could
reconstruct the per-group current epochs. -/
theorem C1_no_import_cex :
    "importState" ∉ MlsClient.publicEntryPoints ∧
      cS.export_state = cS5.export_state ∧ cS ≠ cS5 :=
  ⟨by decide, rfl, by decide⟩

/-- Claim C1 (amended): export_state succeeds on every client state and its
snapshot lists exactly the registry's group identifiers together with each
group's ratchet-tree membership view; the snapshot carries no epoch
information (any two clients agreeing on credential, signature key, group
ids, wire group ids, and membership views export identically, whatever
their epochs); and no import-state entry point exists in the public API, so
no export/import round trip is available. -/
theorem C1_export_state :
    (∀ c : MlsClient, ∃ st : ExportedState,
        c.export_state = .ok (JsResult.okResult st) ∧
        st.groups.map (fun eg => eg.id) = c.groups.map Prod.fst ∧
        st.groups.map (fun eg => eg.state) =
          c.groups.map (fun p => B64.enc p.2.export_ratchet_tree)) ∧
    (∀ c1 c2 : MlsClient, c1.credential = c2.credential →
        c1.signature_pub = c2.signature_pub →
        c1.groups.map Prod.fst = c2.groups.map Prod.fst →
        c1.groups.map (fun p => p.2.group_id) = c2.groups.map (fun p => p.2.group_id) →
        c1.groups.map (fun p => p.2.members) = c2.groups.map (fun p => p.2.members) →
        c1.export_state = c2.export_state) ∧
    "importState" ∉ MlsClient.publicEntryPoints := by
  refine ⟨?_, ?_, by decide⟩
  · intro c
    refine ⟨_, rfl, ?_, ?_⟩
    · simp [MlsClient.export_state, List.map_map]
    · simp [MlsClient.export_state, List.map_map]
  · intro c1 c2 hcred hsig hids hgids hmem
    unfold MlsClient.export_state
    rw [hcred, hsig, exportGroups_ext c1.groups c2.groups hids hgids hmem]

/-- Witness for C1: the epoch-independence of export applied to two
concrete clients that differ only in a group's epoch. -/
theorem C1_export_state_witness :
    cS.export_state = cS5.export_state :=
  C1_export_state.2.1 cS cS5 rfl rfl rfl rfl rfl

/-- Counterexample to claim C2 at a concrete input: decrypting a commit
frame returns the envelope with ok = true and both value and error absent
(lib.rs lines 366-370), violating the claimed mutual consistency. -/
theorem C2_commit_envelope_cex :
    (cS.decrypt [103] (B64.enc (Tls.ser (.protocolMsg ⟨[103], 0, .commit [[65], [66]]⟩)))).2 =
      Except.ok (⟨true, none, none⟩ : JsResult DecryptedMessage) ∧
    envelopeConsistent (⟨true, none, none⟩ : JsResult DecryptedMessage) = false :=
  ⟨rfl, rfl⟩

/-- Claim C2 (amended): every envelope returned by a public operation is
consistent — ok is true exactly when value is present and error absent, the
two never both absent — with the single exception of the staged-commit
branch of decrypt, whose envelope has ok = true with both value and error
absent.  (Failure paths surface as a thrown JS error rather than a returned
envelope, and `JsResult::err` is never invoked.) -/
theorem C2_envelope_consistency :
    (∀ (c : MlsClient) (n : Nat) (r : JsResult (List KeyPackageData)),
        c.generate_key_packages n = .ok r → envelopeConsistent r = true) ∧
    (∀ (c c2 : MlsClient) (name : Bytes) (r : JsResult GroupCreatedData),
        c.create_group name = (c2, .ok r) → envelopeConsistent r = true) ∧
    (∀ (c c2 : MlsClient) (w : B64 (Tls MlsMessageBody)) (r : JsResult GroupCreatedData),
        c.join_group w = (c2, .ok r) → envelopeConsistent r = true) ∧
    (∀ (c c2 : MlsClient) (gid : Bytes) (kps : List (B64 (Tls KeyPackageIn)))
        (r : JsResult AddMembersResult),
        c.add_members gid kps = (c2, .ok r) → envelopeConsistent r = true) ∧
    (∀ (c c2 : MlsClient) (gid p : Bytes) (r : JsResult EncryptedMessage),
        c.encrypt gid p = (c2, .ok r) → envelopeConsistent r = true) ∧
    (∀ (c : MlsClient) (r : JsResult ExportedState),
        c.export_state = .ok r → envelopeConsistent r = true) ∧
    (∀ (c c2 : MlsClient) (gid : Bytes) (f : B64 (Tls MlsMessageBody))
        (r : JsResult DecryptedMessage),
        c.decrypt gid f = (c2, .ok r) →
          envelopeConsistent r = true ∨ r = ⟨true, none, none⟩) := by
  refine ⟨?_, ?_, ?_, ?_, ?_, ?_, ?_⟩
  · intro c n r h
    rcases generate_key_packages_ok_shape c n r h with ⟨v, hv⟩
    rw [hv]
    exact envelopeConsistent_okResult v
  · intro c c2 name r h
    unfold MlsClient.create_group at h
    simp only [Prod.mk.injEq, Except.ok.injEq] at h
    rw [← h.2]
    exact envelopeConsistent_okResult _
  · intro c c2 w r h
    rcases join_group_ok_shape c w c2 r h with ⟨v, hv⟩
    rw [hv]
    exact envelopeConsistent_okResult v
  · intro c c2 gid kps r h
    rcases add_members_ok_shape c gid kps c2 r h with ⟨g, _, _, v, hv⟩
    rw [hv]
    exact envelopeConsistent_okResult v
  · intro c c2 gid p r h
    rcases encrypt_ok_shape c gid p c2 r h with ⟨v, hv⟩
    rw [hv]
    exact envelopeConsistent_okResult v
  · intro c r h
    unfold MlsClient.export_state at h
    simp only [Except.ok.injEq] at h
    rw [← h]
    exact envelopeConsistent_okResult _
  · intro c c2 gid f r h
    rcases decrypt_ok_shape c gid f c2 r h with ⟨p, _, hv⟩ | hv
    · rw [hv]
      exact Or.inl (envelopeConsistent_okResult _)
    · exact Or.inr hv

/-- Witness for C2 (amended): the export_state conjunct evaluated on a
concrete client. -/
theorem C2_envelope_consistency_witness :
    envelopeConsistent (JsResult.okResult (⟨B64.enc [65], B64.enc 0,
      [⟨[103], B64.enc [103], B64.enc [[65]]⟩]⟩ : ExportedState)) = true :=
  C2_envelope_consistency.2.2.2.2.2.1 cS _ rfl

/-- Claim C3: encrypting plaintext P in a registered session at epoch E
returns a frame tagged with E, and decrypting that frame against the same
session state yields P back (with sender index 0); decrypting it against
any later state of the same session — same wire group id, strictly greater
epoch — fails with the protocol-processing error and never returns
plaintext. -/
theorem C3_encrypt_decrypt_roundtrip (c : MlsClient) (gid p : Bytes) (g : MlsGroup)
    (hg : lookupGroup c.groups gid = some g) (hp : isValidUtf8 p = true) :
    (c.encrypt gid p).2 =
        .ok (JsResult.okResult ⟨B64.enc (Tls.ser (g.create_message p)), g.epoch⟩) ∧
    (c.decrypt gid (B64.enc (Tls.ser (g.create_message p)))).2 =
        .ok (JsResult.okResult ⟨p, 0⟩) ∧
    ∀ (c2 : MlsClient) (g2 : MlsGroup), lookupGroup c2.groups gid = some g2 →
      g2.group_id = g.group_id → g.epoch < g2.epoch →
      (c2.decrypt gid (B64.enc (Tls.ser (g.create_message p)))).2 =
        .error "Failed to process message" := by
  refine ⟨?_, ?_, ?_⟩
  · unfold MlsClient.encrypt
    rw [hg]
  · unfold MlsClient.decrypt
    rw [hg]
    simp [MlsGroup.create_message, MlsGroup.process_message, hp]
  · intro c2 g2 hg2 hgid hlt
    unfold MlsClient.decrypt
    rw [hg2]
    have hne : g.epoch ≠ g2.epoch := Nat.ne_of_lt hlt
    simp [MlsGroup.create_message, MlsGroup.process_message, hgid, hne]

/-- Witness for C3: the round trip on a concrete client at epoch 0, and the
failure against the same session advanced to epoch 5. -/
theorem C3_encrypt_decrypt_roundtrip_witness :
    (cS.encrypt [103] [104, 105]).2 =
        .ok (JsResult.okResult
          ⟨B64.enc (Tls.ser (.protocolMsg ⟨[103], 0, .application 0 [104, 105]⟩)), 0⟩) ∧
    (cS.decrypt [103] (B64.enc (Tls.ser (.protocolMsg ⟨[103], 0, .application 0 [104, 105]⟩)))).2 =
        .ok (JsResult.okResult ⟨[104, 105], 0⟩) ∧
    (cS5.decrypt [103] (B64.enc (Tls.ser (.protocolMsg ⟨[103], 0, .application 0 [104, 105]⟩)))).2 =
        .error "Failed to process message" := by
  have h := C3_encrypt_decrypt_roundtrip cS [103] [104, 105] ⟨[103], 0, [[65]], none⟩ rfl rfl
  exact ⟨h.1, h.2.1, h.2.2 cS5 ⟨[103], 5, [[65]], none⟩ rfl rfl (by decide)⟩

/-- Claim C4: on a registered group, add_members with any invalid package in
the input list (bad base64, failed deserialization, or failed validation)
fails the whole call and returns the client state exactly unchanged —
registry, epoch and membership untouched. -/
theorem C4_add_members_atomic (c : MlsClient) (gid : Bytes) (g : MlsGroup)
    (kps : List (B64 (Tls KeyPackageIn))) (hg : lookupGroup c.groups gid = some g)
    (hbad : ∃ kp ∈ kps, kpInvalid kp = true) :
    ∃ e, c.add_members gid kps = (c, .error e) := by
  rcases decodeKeyPackages_error_of_invalid kps hbad with ⟨e, he⟩
  refine ⟨e, ?_⟩
  unfold MlsClient.add_members
  rw [hg, he]

/-- Witness for C4: a malformed base64 package among a valid one aborts a
concrete add_members call leaving the client untouched. -/
theorem C4_add_members_atomic_witness :
    (∃ kp ∈ [B64.invalid, goodKp], kpInvalid kp = true) ∧
      ∃ e, cS.add_members [103] [B64.invalid, goodKp] = (cS, .error e) :=
  ⟨⟨B64.invalid, by simp, rfl⟩,
   C4_add_members_atomic cS [103] ⟨[103], 0, [[65]], none⟩ [B64.invalid, goodKp] rfl
     ⟨B64.invalid, by simp, rfl⟩⟩

/-- Claim C5: when the engine generates every requested key, issuing n
packages returns exactly n packages with pairwise-distinct content-derived
identifiers, and n = 0 yields the empty sequence rather than an error; when
the engine fails on any package in range, the whole call aborts with an
error and no partial list is returned. -/
theorem C5_issue_key_packages (c : MlsClient) (count : Nat) :
    ((∀ j, j < count → (c.rng + j) ∉ c.keygen_failures) →
      ∃ pkgs, c.generate_key_packages count = .ok (JsResult.okResult pkgs) ∧
        pkgs.length = count ∧ (pkgs.map (fun p => p.id)).Nodup ∧
        (count = 0 → pkgs = [])) ∧
    ((∃ j, j < count ∧ (c.rng + j) ∈ c.keygen_failures) →
      ∃ e, c.generate_key_packages count = .error e) := by
  constructor
  · intro hok
    rcases genKeyPackagesLoop_ok c.credential c.keygen_failures count c.rng hok with
      ⟨l, hl, hmap, hlen⟩
    refine ⟨l, ?_, hlen, ?_, ?_⟩
    · unfold MlsClient.generate_key_packages
      rw [hl]
    · rw [hmap]
      exact List.nodup_range' _ _
    · intro h0
      rw [h0] at hlen
      exact List.length_eq_zero.mp hlen
  · intro hbad
    rcases genKeyPackagesLoop_error c.credential c.keygen_failures count c.rng hbad with ⟨e, he⟩
    refine ⟨e, ?_⟩
    unfold MlsClient.generate_key_packages
    rw [he]

/-- Witness for C5: a concrete client issues 3 distinct packages and an
empty sequence for 0, and a client whose engine fails on the second key
aborts the whole call. -/
theorem C5_issue_key_packages_witness :
    (∃ pkgs, cS.generate_key_packages 3 = .ok (JsResult.okResult pkgs) ∧
        pkgs.length = 3 ∧ (pkgs.map (fun p => p.id)).Nodup ∧ (3 = 0 → pkgs = [])) ∧
    (∃ pkgs, cS.generate_key_packages 0 = .ok (JsResult.okResult pkgs) ∧
        pkgs.length = 0 ∧ (pkgs.map (fun p => p.id)).Nodup ∧ (0 = 0 → pkgs = [])) ∧
    (∃ e, cFail.generate_key_packages 2 = .error e) :=
  ⟨(C5_issue_key_packages cS 3).1 (by decide),
   (C5_issue_key_packages cS 0).1 (by decide),
   (C5_issue_key_packages cFail 2).2 ⟨1, by decide, by decide⟩⟩

/-- Claim C6: create_group registers the fresh group and get_epoch on it
returns 0; after any successful self-issued add_members call on that group
(which unconditionally merges its own commit), get_epoch returns 1. -/
theorem C6_epoch_progression (c : MlsClient) (name : Bytes) :
    (c.create_group name).2 =
        .ok (JsResult.okResult ⟨uuidBytes c.uuid_ctr, B64.enc (uuidBytes c.uuid_ctr)⟩) ∧
    (c.create_group name).1.get_epoch (uuidBytes c.uuid_ctr) = .ok 0 ∧
    ∀ (kps : List (B64 (Tls KeyPackageIn))) (c2 : MlsClient) (r : JsResult AddMembersResult),
      (c.create_group name).1.add_members (uuidBytes c.uuid_ctr) kps = (c2, .ok r) →
      c2.get_epoch (uuidBytes c.uuid_ctr) = .ok 1 := by
  have hl : lookupGroup (c.create_group name).1.groups (uuidBytes c.uuid_ctr) =
      some (MlsGroup.new_with_group_id (uuidBytes c.uuid_ctr) c.credential) := by
    unfold MlsClient.create_group
    exact lookupGroup_insert_self _ _ _
  refine ⟨rfl, ?_, ?_⟩
  · unfold MlsClient.get_epoch
    rw [hl]
    rfl
  · intro kps c2 r h
    rcases add_members_ok_shape _ _ _ _ _ h with ⟨g, hgl, hep, _⟩
    rw [hl] at hgl
    have hg : g = MlsGroup.new_with_group_id (uuidBytes c.uuid_ctr) c.credential := by
      injection hgl.symm
    rw [hg] at hep
    exact hep

/-- Witness for C6: the concrete epoch-0 and epoch-1 runs. -/
theorem C6_epoch_progression_witness :
    ((cS.create_group [110]).1.get_epoch (uuidBytes 0) = .ok 0) ∧
      ((cS.create_group [110]).1.add_members (uuidBytes 0) [goodKp]).1.get_epoch (uuidBytes 0) =
        .ok 1 :=
  ⟨(C6_epoch_progression cS [110]).2.1,
   (C6_epoch_progression cS [110]).2.2 [goodKp] _ _ rfl⟩

/-- Claim C7: decrypt (the inbound-processing operation) on a group id
absent from the registry fails with the not-found error and leaves the
client untouched, for every frame — including malformed base64 — showing
the lookup failure precedes any decoding, deserialization, or engine
call. -/
theorem C7_unknown_group (c : MlsClient) (gid : Bytes) (frame : B64 (Tls MlsMessageBody))
    (h : lookupGroup c.groups gid = none) :
    c.decrypt gid frame = (c, .error "Group not found") := by
  unfold MlsClient.decrypt
  rw [h]

/-- Witness for C7: a concrete unknown id with a malformed-base64 frame. -/
theorem C7_unknown_group_witness :
    lookupGroup cS.groups [104] = none ∧
      cS.decrypt [104] B64.invalid = (cS, .error "Group not found") :=
  ⟨rfl, C7_unknown_group cS [104] B64.invalid rfl⟩

/-- Claim C8: every successfully decrypted application message carries
sender_index 0, regardless of which member actually sent the frame. -/
theorem C8_sender_index_zero (c : MlsClient) (gid : Bytes) (frame : B64 (Tls MlsMessageBody))
    (c2 : MlsClient) (r : JsResult DecryptedMessage) (m : DecryptedMessage)
    (h : c.decrypt gid frame = (c2, .ok r)) (hv : r.value = some m) :
    m.sender_index = 0 := by
  rcases decrypt_ok_shape c gid frame c2 r h with ⟨p, _, hr⟩ | hr
  · rw [hr] at hv
    simp [JsResult.okResult] at hv
    rw [← hv]
  · rw [hr] at hv
    simp at hv

/-- Witness for C8: a frame whose wire-level sender leaf is 7 still decrypts
to sender_index 0. -/
theorem C8_sender_index_zero_witness :
    cS.decrypt [103] (B64.enc (Tls.ser (.protocolMsg ⟨[103], 0, .application 7 [104]⟩))) =
        (cS, .ok (JsResult.okResult ⟨[104], 0⟩)) ∧
      (⟨[104], 0⟩ : DecryptedMessage).sender_index = 0 :=
  ⟨rfl, C8_sender_index_zero cS [103]
    (B64.enc (Tls.ser (.protocolMsg ⟨[103], 0, .application 7 [104]⟩))) cS
    (JsResult.okResult ⟨[104], 0⟩) ⟨[104], 0⟩ rfl rfl⟩

/-- Claim C9: a welcome whose lossy-UTF-8-decoded wire group id equals the
key of a session already in the registry joins successfully and silently
replaces that session (no new registry entry, the old group gone); the same
silent replacement holds for create_group when its fresh uuid collides with
an existing key. -/
theorem C9_silent_replacement :
    (∀ (c : MlsClient) (w : WelcomeMsg) (gOld : MlsGroup),
        lookupGroup c.groups (utf8Lossy w.wire_group_id) = some gOld →
        ∃ c2 : MlsClient,
          c.join_group (B64.enc (Tls.ser (.welcome w))) =
            (c2, .ok (JsResult.okResult ⟨utf8Lossy w.wire_group_id, B64.enc w.wire_group_id⟩)) ∧
          lookupGroup c2.groups (utf8Lossy w.wire_group_id) =
            some ⟨w.wire_group_id, w.join_epoch, w.members, none⟩ ∧
          c2.groups.map Prod.fst = c.groups.map Prod.fst) ∧
    (∀ (c : MlsClient) (name : Bytes) (gOld : MlsGroup),
        lookupGroup c.groups (uuidBytes c.uuid_ctr) = some gOld →
        ∃ c2 : MlsClient,
          c.create_group name =
            (c2, .ok (JsResult.okResult ⟨uuidBytes c.uuid_ctr, B64.enc (uuidBytes c.uuid_ctr)⟩)) ∧
          lookupGroup c2.groups (uuidBytes c.uuid_ctr) =
            some (MlsGroup.new_with_group_id (uuidBytes c.uuid_ctr) c.credential) ∧
          c2.groups.map Prod.fst = c.groups.map Prod.fst) := by
  constructor
  · intro c w gOld hold
    refine ⟨_, rfl, ?_, ?_⟩
    · exact lookupGroup_insert_self _ _ _
    · exact insertGroup_map_fst_of_mem _ _ _ _ hold
  · intro c name gOld hold
    refine ⟨_, rfl, ?_, ?_⟩
    · exact lookupGroup_insert_self _ _ _
    · exact insertGroup_map_fst_of_mem _ _ _ _ hold

/-- A pre-existing group session used by the C9 witness. -/
def gOld9 : MlsGroup := ⟨[200], 7, [[66]], none⟩

/-- A client already holding a session under key [104] (the lossy decoding
of the colliding welcome's wire group id). -/
def cS9 : MlsClient := ⟨[65], 0, [([104], gOld9)], 1, [], 0⟩

/-- A client already holding a session under the uuid create_group will
draw next. -/
def cS9b : MlsClient := ⟨[65], 0, [(uuidBytes 0, gOld9)], 1, [], 0⟩

/-- Witness for C9: a concrete colliding join and a concrete colliding
create, both silently replacing the old session. -/
theorem C9_silent_replacement_witness :
    (∃ c2 : MlsClient,
        cS9.join_group (B64.enc (Tls.ser (.welcome ⟨[104], 3, [[66], [65]]⟩))) =
          (c2, .ok (JsResult.okResult ⟨utf8Lossy [104], B64.enc [104]⟩)) ∧
        lookupGroup c2.groups (utf8Lossy [104]) = some ⟨[104], 3, [[66], [65]], none⟩ ∧
        c2.groups.map Prod.fst = cS9.groups.map Prod.fst) ∧
    (∃ c2 : MlsClient,
        cS9b.create_group [110] =
          (c2, .ok (JsResult.okResult ⟨uuidBytes 0, B64.enc (uuidBytes 0)⟩)) ∧
        lookupGroup c2.groups (uuidBytes 0) =
          some (MlsGroup.new_with_group_id (uuidBytes 0) [65]) ∧
        c2.groups.map Prod.fst = cS9b.groups.map Prod.fst) :=
  ⟨C9_silent_replacement.1 cS9 ⟨[104], 3, [[66], [65]]⟩ gOld9 rfl,
   C9_silent_replacement.2 cS9b [110] gOld9 rfl⟩

/-- Claim C10: a frame that decrypts to an application message whose
plaintext bytes are not valid UTF-8 makes decrypt fail with the UTF-8
error; the raw bytes are never returned to the caller. -/
theorem C10_utf8_reject (c : MlsClient) (gid : Bytes) (g : MlsGroup) (sender : Nat)
    (payload : Bytes) (hg : lookupGroup c.groups gid = some g)
    (hbad : isValidUtf8 payload = false) :
    c.decrypt gid
        (B64.enc (Tls.ser (.protocolMsg ⟨g.group_id, g.epoch, .application sender payload⟩))) =
      (c, .error "Invalid UTF-8 in message") := by
  unfold MlsClient.decrypt
  rw [hg]
  simp [MlsGroup.process_message, hbad]

/-- Witness for C10: the lone byte 255 is rejected. -/
theorem C10_utf8_reject_witness :
    isValidUtf8 [255] = false ∧
      cS.decrypt [103] (B64.enc (Tls.ser (.protocolMsg ⟨[103], 0, .application 1 [255]⟩))) =
        (cS, .error "Invalid UTF-8 in message") :=
  ⟨rfl, C10_utf8_reject cS [103] ⟨[103], 0, [[65]], none⟩ 1 [255] rfl rfl⟩
